import Mathlib

/-!
Verification of the inkognito anonymization engine.

Shallow embedding of the reversible-anonymization core:
`vault.py` (`VaultManager`), `sample_code/vault.py` (a second `VaultManager`
variant), `sample_code/anonymizer.py` (`PIIAnonymizer.anonymize_with_vault`)
and the batch drivers `anonymize_documents` / `restore_documents` in
`server.py`.

Python strings are embedded as `List Char`.  Python dictionaries are embedded
as association lists with dictionary insert semantics (an assignment to an
existing key updates the value in place and keeps the key's position, a new
key is appended), matching the insertion-order behaviour of Python 3.7+
dicts, which the code relies on when iterating `dict.items()`.
-/

abbrev Str := List Char

/-- Python `pat in s` (substring containment).  `"" in s` is `True`. -/
def containsSub (pat : Str) : Str → Bool
  | [] => pat.isEmpty
  | c :: rest => pat.isPrefixOf (c :: rest) || containsSub pat rest

/-- Fuel-indexed worker for `replaceAll`; each step consumes at least one
character of the text, so fuel `s.length` is always sufficient. -/
def replaceAllFuel (old new : Str) : Nat → Str → Str
  | 0, s => s
  | _ + 1, [] => []
  | fuel + 1, c :: rest =>
    if !old.isEmpty && old.isPrefixOf (c :: rest) then
      new ++ replaceAllFuel old new fuel ((c :: rest).drop old.length)
    else
      c :: replaceAllFuel old new fuel rest

/-- Python `s.replace(old, new)`: replace every non-overlapping, leftmost-first
occurrence of `old` in `s` by `new`.  For an empty `old` Python would
interleave `new` everywhere; the pipeline only ever substitutes non-empty
placeholder and synthetic strings, and for those this definition agrees with
`str.replace`. -/
def replaceAll (old new s : Str) : Str :=
  replaceAllFuel old new s.length s

/-- Fuel-indexed worker for `replaceOne`. -/
def replaceOneFuel (old new : Str) : Nat → Str → Str
  | 0, s => s
  | _ + 1, [] => []
  | fuel + 1, c :: rest =>
    if !old.isEmpty && old.isPrefixOf (c :: rest) then
      new ++ (c :: rest).drop old.length
    else
      c :: replaceOneFuel old new fuel rest

/-- Python `s.replace(old, new, 1)`: replace only the first occurrence. -/
def replaceOne (old new s : Str) : Str :=
  replaceOneFuel old new s.length s

/-- Fuel-indexed worker for `countOccs`. -/
def countOccsFuel (pat : Str) : Nat → Str → Nat
  | 0, _ => 0
  | _ + 1, [] => 0
  | fuel + 1, c :: rest =>
    if pat.isPrefixOf (c :: rest) then
      1 + countOccsFuel pat fuel ((c :: rest).drop pat.length)
    else
      countOccsFuel pat fuel rest

/-- Python `s.count(pat)`: number of non-overlapping occurrences, scanning
left to right.  Python returns `len(s) + 1` for an empty pattern. -/
def countOccs (pat s : Str) : Nat :=
  if pat.isEmpty then s.length + 1 else countOccsFuel pat s.length s

/-- Python dict assignment `d[k] = v`: update in place if the key exists
(keeping its position), otherwise append. -/
def dictInsert {α : Type} (k : Str) (v : α) : List (Str × α) → List (Str × α)
  | [] => [(k, v)]
  | (k', v') :: rest =>
    if k' = k then (k', v) :: rest else (k', v') :: dictInsert k v rest

/-- Python dict lookup `d.get(k)`. -/
def dictGet {α : Type} (k : Str) : List (Str × α) → Option α
  | [] => none
  | (k', v) :: rest => if k' = k then some v else dictGet k rest

/-- Python `d.update(other)`: insert every item of `other` in order. -/
def dictUpdate {α : Type} (d other : List (Str × α)) : List (Str × α) :=
  other.foldl (fun acc p => dictInsert p.1 p.2 acc) d

/-- The keys of an embedded dict are pairwise distinct (true of every real
Python dict). -/
abbrev keysDistinct {α : Type} (d : List (Str × α)) : Prop :=
  d.Pairwise (fun p q => p.1 ≠ q.1)

namespace VaultManager

/-- The `statistics` sub-dict written by `vault.py` `serialize_vault`. -/
structure VaultStatistics where
  files_processed : Int
  total_replacements : Int
deriving DecidableEq

/-- A parsed vault JSON record as read by `vault.py`.  Every field is
optional because a JSON object may lack any key (`dict.get` returns `None`).
A record with all fields `none` also covers Python's falsy empty dict, which
`deserialize_vault` treats the same way as an unknown version. -/
structure VaultData where
  version : Option Str
  date_offset : Option Int
  mappings : Option (List (Str × Str))
  statistics : Option VaultStatistics
  created_at : Option Str
deriving DecidableEq

/-- `vault.py` `VaultManager.serialize_vault`.  `now` stands for the
`datetime.now().isoformat()` timestamp, an input of the environment. -/
def serialize_vault (mappings : List (Str × Str)) (date_offset : Int)
    (total_files : Int) (now : Str) : VaultData :=
  { version := some "2.0".toList
    date_offset := some date_offset
    mappings := some mappings
    statistics := some ⟨total_files, (mappings.length : Int)⟩
    created_at := some now }

/-- `vault.py` `VaultManager.deserialize_vault`.  `none` models the Python
`None` (and, behaviourally, the falsy empty dict) input. -/
def deserialize_vault : Option VaultData → Option Int × List (Str × Str)
  | none => (none, [])
  | some v =>
    if v.version = some "2.0".toList then (v.date_offset, v.mappings.getD [])
    else (none, [])

/-- The only exception `vault.py` `load_vault` itself raises. -/
inductive LoadError where
  | fileNotFound
deriving DecidableEq

/-- `vault.py` `VaultManager.load_vault`.  The outer `Option` models the
file-existence check (`none` = missing file); the inner `Option VaultData`
is the JSON record `json.load` produced. -/
def load_vault : Option (Option VaultData) → Except LoadError (Option Int × List (Str × Str))
  | none => .error .fileNotFound
  | some vault_data => .ok (deserialize_vault vault_data)

/-- `vault.py` `VaultManager.create_reverse_mappings`:
`{v: k for k, v in mappings.items()}`. -/
def create_reverse_mappings (mappings : List (Str × Str)) : List (Str × Str) :=
  mappings.foldl (fun acc p => dictInsert p.2 p.1 acc) []

end VaultManager

namespace SampleVaultManager

/-- The `metadata` sub-dict written by `sample_code/vault.py`. -/
structure VaultMetadata where
  date_offset : Option Int
  total_files : Option Int
deriving DecidableEq

/-- A parsed vault record in the `sample_code/vault.py` layout: `mappings`
is an ordered list of `[replacement, original]` pairs. -/
structure VaultData where
  version : Option Str
  created : Option Str
  metadata : Option VaultMetadata
  mappings : Option (List (Str × Str))
deriving DecidableEq

/-- `sample_code/vault.py` `VaultManager.serialize_vault`. -/
def serialize_vault (mappings : List (Str × Str)) (date_offset : Int)
    (total_files : Int) (now : Str) : VaultData :=
  { version := some "2.0".toList
    created := some now
    metadata := some ⟨some date_offset, some total_files⟩
    mappings := some (mappings.map (fun p => (p.2, p.1))) }

/-- `sample_code/vault.py` `VaultManager.deserialize_vault`: rebuilds the
`{original: replacement}` dict from the `[replacement, original]` pairs. -/
def deserialize_vault : Option VaultData → Option Int × List (Str × Str)
  | none => (none, [])
  | some v =>
    if v.version = some "2.0".toList then
      let date_offset := match v.metadata with
        | some m => m.date_offset
        | none => none
      let mappings := (v.mappings.getD []).foldl
        (fun acc p => dictInsert p.2 p.1 acc) []
      (date_offset, mappings)
    else (none, [])

end SampleVaultManager

namespace PIIAnonymizer

/-- The placeholder token `f"[REDACTED_{entity_type.upper()}]"` built in
`sample_code/anonymizer.py` `anonymize_with_vault`. -/
def placeholderFor (entity_type : Str) : Str :=
  "[REDACTED_".toList ++ entity_type.map Char.toUpper ++ "]".toList

/-- The mutable state of the replacement loop in `anonymize_with_vault`:
the evolving text, the per-type `statistics` dict, the `new_mappings` dict,
and the number of faker calls made so far (the faker draws a fresh random
value on every call, modelled by indexing into a supply `gen`). -/
structure AnonState where
  anonymized_text : Str
  statistics : List (Str × Nat)
  new_mappings : List (Str × Str)
  gen_count : Nat
deriving DecidableEq

/-- Body of the inner `for original_value in values` loop of
`anonymize_with_vault`: consult `existing_mappings` (and only
`existing_mappings` — the mappings freshly recorded in `new_mappings`
during this same call are not consulted, exactly as in the source), generate
a synthetic value on a miss, then replace the first occurrence of the type
placeholder (`str.replace(..., 1)`). -/
def processValue (gen : Str → Str → Nat → Str) (existing_mappings : List (Str × Str))
    (entity_type : Str) (st : AnonState) (original_value : Str) : AnonState :=
  let (faker_value, new_mappings, gen_count) :=
    match dictGet original_value existing_mappings with
    | some v => (v, st.new_mappings, st.gen_count)
    | none =>
      let fv := gen entity_type original_value st.gen_count
      (fv, dictInsert original_value fv st.new_mappings, st.gen_count + 1)
  let placeholder := placeholderFor entity_type
  let anonymized_text :=
    if containsSub placeholder st.anonymized_text then
      replaceOne placeholder faker_value st.anonymized_text
    else st.anonymized_text
  { anonymized_text := anonymized_text
    statistics := st.statistics
    new_mappings := new_mappings
    gen_count := gen_count }

/-- Body of the outer `for entity_type, values in vault._vault.items()` loop
of `anonymize_with_vault`: record `statistics[entity_type] = len(values)`,
then process each detected value. -/
def processEntry (gen : Str → Str → Nat → Str) (existing_mappings : List (Str × Str))
    (st : AnonState) (entry : Str × List Str) : AnonState :=
  let st := { st with statistics := dictInsert entry.1 entry.2.length st.statistics }
  entry.2.foldl (processValue gen existing_mappings entry.1) st

/-- `sample_code/anonymizer.py` `PIIAnonymizer.anonymize_with_vault`, after
the llm-guard scan: takes the sanitized text (originals already replaced by
placeholders), the scanner's vault contents `vault._vault` (entity type →
detected original values), the seed mapping table, and a synthetic-value
supply `gen` (entity type → original value → call index → value), and runs
the consistent-replacement loop. -/
def anonymize_with_vault (gen : Str → Str → Nat → Str) (sanitized_prompt : Str)
    (vaultEntries : List (Str × List Str))
    (existing_mappings : List (Str × Str)) : AnonState :=
  vaultEntries.foldl (processEntry gen existing_mappings)
    { anonymized_text := sanitized_prompt
      statistics := []
      new_mappings := []
      gen_count := 0 }

/-- Append a detected value to the scanner vault's per-type list. -/
def vaultAppend (entity_type value : Str) :
    List (Str × List Str) → List (Str × List Str)
  | [] => [(entity_type, [value])]
  | (t, vs) :: rest =>
    if t = entity_type then (t, vs ++ [value]) :: rest
    else (t, vs) :: vaultAppend entity_type value rest

/-- Modelled from the spec: the llm-guard `Anonymize` scanner (an external
library, not part of this repository) with `hide_pii=True`.  Per the spec,
for each retained detection it replaces every literal occurrence of the
original value in the text with the type-scoped placeholder, and records the
value in the vault under its entity type.  Detections are given as
`(entity_type, value)` pairs in detection order. -/
def scan (detections : List (Str × Str)) (text : Str) :
    Str × List (Str × List Str) :=
  (detections.foldl (fun t d => replaceAll d.2 (placeholderFor d.1) t) text,
   detections.foldl (fun v d => vaultAppend d.1 d.2 v) [])

/-- One file of the anonymization pipeline: scan (spec-modelled detection)
followed by the source's consistent-replacement loop. -/
def anonymizeFile (gen : Str → Str → Nat → Str) (detections : List (Str × Str))
    (existing_mappings : List (Str × Str)) (text : Str) : AnonState :=
  let scanned := scan detections text
  anonymize_with_vault gen scanned.1 scanned.2 existing_mappings

end PIIAnonymizer

namespace Server

/-- `server.py` `ProcessingResult` (the `vault_path` field). -/
structure ProcessingResult where
  success : Bool
  output_paths : List Str
  statistics : List (Str × Nat)
  message : Str
  vault_path : Option Str := none
deriving DecidableEq

/-- Body of the `for faker_value, original_value in reverse_mappings.items()`
loop of `server.py` `restore_documents`: if the synthetic value occurs in
the text, replace all its occurrences with the original and add the number
of occurrences of the original value in the text *after* the substitution
to the per-file counter. -/
def restoreStep (st : Str × Nat) (p : Str × Str) : Str × Nat :=
  if containsSub p.1 st.1 then
    let restored_content := replaceAll p.1 p.2 st.1
    (restored_content, st.2 + countOccs p.2 restored_content)
  else st

/-- The per-file restoration loop of `server.py` `restore_documents`
(lines 344–351): process the `(faker_value, original_value)` pairs in dict
iteration order (the insertion order of the reverse mappings — no sorting
happens anywhere in the source). -/
def restoreFile (reverse_mappings : List (Str × Str)) (content : Str) :
    Str × Nat :=
  reverse_mappings.foldl restoreStep (content, 0)

/-- The file loop of `restore_documents`: restore each input text and sum
the per-file replacement counts into `total_replacements`. -/
def restore_documents (reverse_mappings : List (Str × Str))
    (contents : List Str) : List Str × Nat :=
  contents.foldl
    (fun acc c =>
      let r := restoreFile reverse_mappings c
      (acc.1 ++ [r.1], acc.2 + r.2))
    ([], 0)

/-- What happens when `anonymize_documents` tries to obtain the text of one
file: a PDF with no available extractor is logged and skipped (`continue`);
a read or extraction failure raises an exception; otherwise the content is
returned. -/
inductive FileRead where
  | noExtractor
  | readError (msg : Str)
  | content (text : Str)
deriving DecidableEq

/-- One input file of a batch: its output stem, its read outcome, and the
detections the scanner reports on its content. -/
structure BatchFile where
  name : Str
  read : FileRead
  detections : List (Str × Str)
deriving DecidableEq

/-- The anonymized output file name `Path(file_path).stem + ".md"`
(`name` models the stem). -/
def output_name (name : Str) : Str := name ++ ".md".toList

/-- The loop state of `anonymize_documents`. -/
structure BatchState where
  total_statistics : List (Str × Nat)
  output_paths : List Str
  vault_mappings : List (Str × Str)
  gen_base : Nat
deriving DecidableEq

/-- `for entity_type, count in statistics.items(): total_statistics[...] =
total_statistics.get(entity_type, 0) + count`. -/
def aggregateStats (total : List (Str × Nat)) (stats : List (Str × Nat)) :
    List (Str × Nat) :=
  stats.foldl
    (fun acc p => dictInsert p.1 ((dictGet p.1 acc).getD 0 + p.2) acc) total

/-- The `for i, file_path in enumerate(input_files)` loop of
`anonymize_documents` (lines 154–202).  The whole loop runs inside one
`try`; an exception while handling any file propagates out (`.error`),
aborting the batch.  A missing extractor only skips its file.  The faker's
statefulness across files is modelled by offsetting each file's supply by
the number of draws made so far (`gen_base`). -/
def processFiles (gen : Str → Str → Nat → Str) :
    List BatchFile → BatchState → Except Str BatchState
  | [], st => .ok st
  | f :: rest, st =>
    match f.read with
    | .noExtractor => processFiles gen rest st
    | .readError msg => .error msg
    | .content text =>
      let r := PIIAnonymizer.anonymizeFile
        (fun t v k => gen t v (st.gen_base + k)) f.detections
        st.vault_mappings text
      processFiles gen rest
        { total_statistics := aggregateStats st.total_statistics r.statistics
          output_paths := st.output_paths ++ [output_name f.name]
          vault_mappings := dictUpdate st.vault_mappings r.new_mappings
          gen_base := st.gen_base + r.gen_count }

/-- `server.py` `anonymize_documents`: the batch driver.  On an empty file
list it returns the "No files found" failure; if any file raises, the
enclosing `except` turns the whole batch into a failure result with empty
output paths; otherwise a success result naming every written output. -/
def anonymize_documents (gen : Str → Str → Nat → Str)
    (files : List BatchFile) : ProcessingResult :=
  if files.isEmpty then
    { success := false
      output_paths := []
      statistics := []
      message := "No files found matching the specified patterns".toList }
  else
    match processFiles gen files
        { total_statistics := [], output_paths := [],
          vault_mappings := [], gen_base := 0 } with
    | .ok st =>
      { success := true
        output_paths := st.output_paths
        statistics := st.total_statistics
        message := ("Successfully anonymized " ++ Nat.repr files.length
          ++ " files").toList
        vault_path := some "vault.json".toList }
    | .error e =>
      { success := false
        output_paths := []
        statistics := []
        message := "Anonymization failed: ".toList ++ e }

end Server

namespace SpecModel

/-- Insert a pair into a list kept sorted by descending length of the first
component (the synthetic value). -/
def insertByLen (p : Str × Str) : List (Str × Str) → List (Str × Str)
  | [] => [p]
  | q :: rest =>
    if q.1.length ≤ p.1.length then p :: q :: rest
    else q :: insertByLen p rest

/-- Sort synthetic → original pairs by descending synthetic length. -/
def sortByLenDesc (l : List (Str × Str)) : List (Str × Str) :=
  l.foldr insertByLen []

/-- Modelled from the spec: the restoration step of §4.4, which the source
does not implement — "Sort these pairs by descending length of the synthetic
value" before substituting, so a longer synthetic string is fully
substituted before any shorter one that could be its substring. -/
def restoreFileSorted (reverse_mappings : List (Str × Str)) (content : Str) :
    Str × Nat :=
  Server.restoreFile (sortByLenDesc reverse_mappings) content

end SpecModel

example : containsSub "Jon".toList "bJones".toList = true := by decide
example : containsSub "Jon".toList "Jo nes".toList = false := by decide
example : replaceAll "ab".toList "X".toList "zababz".toList = "zXXz".toList := by decide
example : replaceOne "ab".toList "X".toList "zababz".toList = "zXabz".toList := by decide
example : countOccs "aa".toList "aaaa a".toList = 2 := by decide
example : dictInsert "b".toList (1 : Nat) [("a".toList, 0), ("b".toList, 5)]
    = [("a".toList, 0), ("b".toList, 1)] := by decide

/-! ## Helper lemmas about the dict embedding -/

theorem dictGet_append_of_none {α : Type} (k : Str) (e : List (Str × α)) :
    ∀ d : List (Str × α), dictGet k d = none → dictGet k (d ++ e) = dictGet k e
  | [], _ => rfl
  | (k', v) :: rest, h => by
    simp only [dictGet, List.cons_append] at h ⊢
    by_cases hk : k' = k
    · rw [if_pos hk] at h; simp at h
    · rw [if_neg hk] at h ⊢
      exact dictGet_append_of_none k e rest h

theorem dictInsert_of_get_none {α : Type} (k : Str) (v : α) :
    ∀ d : List (Str × α), dictGet k d = none → dictInsert k v d = d ++ [(k, v)]
  | [], _ => rfl
  | (k', v') :: rest, h => by
    simp only [dictGet] at h
    by_cases hk : k' = k
    · rw [if_pos hk] at h; simp at h
    · rw [if_neg hk] at h
      simp only [dictInsert, if_neg hk, List.cons_append]
      rw [dictInsert_of_get_none k v rest h]

theorem foldl_dictInsert_rebuild :
    ∀ (M acc : List (Str × Str)), keysDistinct M →
      (∀ p ∈ M, dictGet p.1 acc = none) →
      M.foldl (fun a p => dictInsert p.1 p.2 a) acc = acc ++ M
  | [], acc, _, _ => by simp
  | p :: rest, acc, hdist, habs => by
    simp only [List.foldl_cons]
    have h0 : dictGet p.1 acc = none := habs p (List.mem_cons_self ..)
    rw [dictInsert_of_get_none p.1 p.2 acc h0]
    have hhead : ∀ q ∈ rest, p.1 ≠ q.1 := (List.pairwise_cons.mp hdist).1
    have habs' : ∀ q ∈ rest, dictGet q.1 (acc ++ [(p.1, p.2)]) = none := by
      intro q hq
      rw [dictGet_append_of_none q.1 [(p.1, p.2)] acc
        (habs q (List.mem_cons_of_mem _ hq))]
      simp only [dictGet]
      rw [if_neg (hhead q hq)]
    rw [foldl_dictInsert_rebuild rest (acc ++ [(p.1, p.2)])
      (List.pairwise_cons.mp hdist).2 habs']
    simp

/-! ## Helper lemmas about the restoration loop -/

theorem foldl_restoreStep_absent :
    ∀ (rm : List (Str × Str)) (c : Str) (n : Nat),
      (∀ p ∈ rm, containsSub p.1 c = false) →
      rm.foldl Server.restoreStep (c, n) = (c, n)
  | [], _, _, _ => rfl
  | p :: rest, c, n, h => by
    simp only [List.foldl_cons]
    have h0 : containsSub p.1 c = false := h p (List.mem_cons_self ..)
    have hstep : Server.restoreStep (c, n) p = (c, n) := by
      simp [Server.restoreStep, h0]
    rw [hstep]
    exact foldl_restoreStep_absent rest c n
      (fun q hq => h q (List.mem_cons_of_mem _ hq))

theorem foldl_restoreStep_shift :
    ∀ (rm : List (Str × Str)) (c : Str) (n : Nat),
      rm.foldl Server.restoreStep (c, n)
        = ((rm.foldl Server.restoreStep (c, 0)).1,
           n + (rm.foldl Server.restoreStep (c, 0)).2)
  | [], c, n => by simp
  | p :: rest, c, n => by
    simp only [List.foldl_cons]
    by_cases h : containsSub p.1 c = true
    · have e1 : Server.restoreStep (c, n) p
          = (replaceAll p.1 p.2 c, n + countOccs p.2 (replaceAll p.1 p.2 c)) := by
        simp [Server.restoreStep, h]
      have e0 : Server.restoreStep (c, 0) p
          = (replaceAll p.1 p.2 c, countOccs p.2 (replaceAll p.1 p.2 c)) := by
        simp [Server.restoreStep, h]
      rw [e1, e0,
        foldl_restoreStep_shift rest (replaceAll p.1 p.2 c)
          (n + countOccs p.2 (replaceAll p.1 p.2 c)),
        foldl_restoreStep_shift rest (replaceAll p.1 p.2 c)
          (countOccs p.2 (replaceAll p.1 p.2 c))]
      simp [Prod.ext_iff]
      omega
    · have hf : containsSub p.1 c = false := by
        cases hc : containsSub p.1 c
        · rfl
        · exact absurd hc h
      have e1 : Server.restoreStep (c, n) p = (c, n) := by
        simp [Server.restoreStep, hf]
      have e0 : Server.restoreStep (c, 0) p = (c, 0) := by
        simp [Server.restoreStep, hf]
      rw [e1, e0]
      exact foldl_restoreStep_shift rest c n

/-! ## Claim theorems about the vault -/

/-- C5: for every mapping table M, date offset and file count, deserializing
the record produced by serializing (M, offset, n) returns exactly
(offset, M) — both for the `vault.py` layout and for the
`sample_code/vault.py` layout (the latter rebuilds the dict from
`[replacement, original]` pairs, which is lossless because a mapping table
has pairwise-distinct keys). -/
theorem vault_serialize_deserialize_roundtrip :
    (∀ (M : List (Str × Str)) (date_offset total_files : Int) (now : Str),
      VaultManager.deserialize_vault
          (some (VaultManager.serialize_vault M date_offset total_files now))
        = (some date_offset, M)) ∧
    (∀ (M : List (Str × Str)) (date_offset total_files : Int) (now : Str),
      keysDistinct M →
      SampleVaultManager.deserialize_vault
          (some (SampleVaultManager.serialize_vault M date_offset total_files now))
        = (some date_offset, M)) := by
  constructor
  · intro M date_offset total_files now
    simp [VaultManager.deserialize_vault, VaultManager.serialize_vault]
  · intro M date_offset total_files now hdist
    simp only [SampleVaultManager.deserialize_vault,
      SampleVaultManager.serialize_vault, Option.getD_some, if_pos rfl]
    rw [List.foldl_map]
    rw [foldl_dictInsert_rebuild M [] hdist (fun p _ => rfl)]
    simp

/-- Witness for C5 at a concrete two-entry mapping table. -/
theorem vault_serialize_deserialize_roundtrip_witness :
    VaultManager.deserialize_vault
        (some (VaultManager.serialize_vault
          [("a".toList, "x".toList), ("b".toList, "y".toList)] 7 2 "t".toList))
      = (some 7, [("a".toList, "x".toList), ("b".toList, "y".toList)]) ∧
    SampleVaultManager.deserialize_vault
        (some (SampleVaultManager.serialize_vault
          [("a".toList, "x".toList), ("b".toList, "y".toList)] 7 2 "t".toList))
      = (some 7, [("a".toList, "x".toList), ("b".toList, "y".toList)]) :=
  ⟨vault_serialize_deserialize_roundtrip.1 _ 7 2 _,
   vault_serialize_deserialize_roundtrip.2 _ 7 2 _ (by decide)⟩

/-- C6: the low-level deserializer soft-fails: `None` input (and any record
whose `version` field is missing or differs from "2.0") yields `(None, {})`.
The embedding is a total function, so no exception is possible on any
input. -/
theorem deserialize_vault_soft_fail :
    VaultManager.deserialize_vault none = (none, []) ∧
    ∀ d : VaultManager.VaultData, d.version ≠ some "2.0".toList →
      VaultManager.deserialize_vault (some d) = (none, []) := by
  refine ⟨rfl, ?_⟩
  intro d h
  simp only [VaultManager.deserialize_vault]
  rw [if_neg h]

/-- Witness for C6 at a concrete record carrying version "1.0". -/
theorem deserialize_vault_soft_fail_witness :
    VaultManager.deserialize_vault
        (some ⟨some "1.0".toList, some 3,
          some [("a".toList, "x".toList)], none, none⟩)
      = (none, []) :=
  deserialize_vault_soft_fail.2 _ (by decide)

/-- C2 counterexample: loading a vault file whose record carries the
unrecognized version "1.0" does NOT fail — `load_vault` returns the
soft-fail value `(None, {})` wrapped in a successful result, the very
empty/default data the claim says must not be returned. -/
theorem load_vault_unknown_version_ok_empty :
    VaultManager.load_vault
        (some (some ⟨some "1.0".toList, some 3,
          some [("a".toList, "x".toList)], none, none⟩))
      = Except.ok (none, []) := rfl

/-- C2 amended: `load_vault` raises only for a missing file
(`FileNotFoundError`); whenever the file exists and parses, it returns
successfully, and a record with an unrecognized or missing version yields
the same soft `(None, {})` as the low-level deserializer — there is no
fatal format error, and restoration proceeds with empty mappings. -/
theorem load_vault_soft_on_unknown_version :
    VaultManager.load_vault none = Except.error VaultManager.LoadError.fileNotFound ∧
    (∀ d : Option VaultManager.VaultData,
      VaultManager.load_vault (some d) = Except.ok (VaultManager.deserialize_vault d)) ∧
    (∀ d : VaultManager.VaultData, d.version ≠ some "2.0".toList →
      VaultManager.load_vault (some (some d)) = Except.ok (none, [])) := by
  refine ⟨rfl, fun d => rfl, ?_⟩
  intro d h
  simp only [VaultManager.load_vault, VaultManager.deserialize_vault]
  rw [if_neg h]

/-- Witness for C2's amended statement at concrete inputs. -/
theorem load_vault_soft_on_unknown_version_witness :
    VaultManager.load_vault (some (some ⟨some "1.0".toList, none, none, none, none⟩))
      = Except.ok (none, []) :=
  load_vault_soft_on_unknown_version.2.2 _ (by decide)

theorem foldl_restore_documents :
    ∀ (rm : List (Str × Str)) (contents paths : List Str) (n : Nat),
      contents.foldl
          (fun acc c =>
            let r := Server.restoreFile rm c
            (acc.1 ++ [r.1], acc.2 + r.2))
          (paths, n)
        = (paths ++ contents.map (fun c => (Server.restoreFile rm c).1),
           n + (contents.map (fun c => (Server.restoreFile rm c).2)).sum)
  | _, [], paths, n => by simp
  | rm, c :: rest, paths, n => by
    simp only [List.foldl_cons]
    rw [foldl_restore_documents rm rest (paths ++ [(Server.restoreFile rm c).1])
      (n + (Server.restoreFile rm c).2)]
    simp [Prod.ext_iff]
    omega

/-! ## Claim theorems about restoration -/

/-- C9 counterexample: with the vault mapping original "aa" → synthetic "b",
restoring the file "b aa" performs exactly one substitution (the single
occurrence of "b") yet the report counts 2, because the code counts the
occurrences of the original value in the text *after* the substitution and
the original "aa" also occurs in the surrounding text. -/
theorem restore_report_overcounts :
    Server.restoreFile
        (VaultManager.create_reverse_mappings [("aa".toList, "b".toList)])
        "b aa".toList
      = ("aa aa".toList, 2) ∧
    countOccs "b".toList "b aa".toList = 1 := by decide

/-- C9 amended: for each processed pair whose synthetic value occurs in the
text, the report adds the number of non-overlapping occurrences of the
original value in the text immediately after that substitution (not the
number of occurrences actually replaced — see the counterexample); the
per-batch total is the sum of the per-file counts, and the per-file counter
decomposes pair by pair. -/
theorem restore_count_characterization :
    (∀ (fv ov c : Str),
      Server.restoreFile [(fv, ov)] c
        = if containsSub fv c then
            (replaceAll fv ov c, countOccs ov (replaceAll fv ov c))
          else (c, 0)) ∧
    (∀ (p : Str × Str) (rm : List (Str × Str)) (c : Str),
      Server.restoreFile (p :: rm) c
        = ((Server.restoreFile rm (Server.restoreStep (c, 0) p).1).1,
           (Server.restoreStep (c, 0) p).2
             + (Server.restoreFile rm (Server.restoreStep (c, 0) p).1).2)) ∧
    (∀ (rm : List (Str × Str)) (contents : List Str),
      Server.restore_documents rm contents
        = (contents.map (fun c => (Server.restoreFile rm c).1),
           (contents.map (fun c => (Server.restoreFile rm c).2)).sum)) := by
  refine ⟨?_, ?_, ?_⟩
  · intro fv ov c
    by_cases h : containsSub fv c = true
    · simp [Server.restoreFile, Server.restoreStep, h]
    · simp only [Bool.not_eq_true] at h
      simp [Server.restoreFile, Server.restoreStep, h]
  · intro p rm c
    show (p :: rm).foldl Server.restoreStep (c, 0) = _
    calc (p :: rm).foldl Server.restoreStep (c, 0)
        = rm.foldl Server.restoreStep
            ((Server.restoreStep (c, 0) p).1, (Server.restoreStep (c, 0) p).2) := by
          rw [List.foldl_cons]
      _ = _ := foldl_restoreStep_shift rm _ _
  · intro rm contents
    simp only [Server.restore_documents]
    rw [foldl_restore_documents rm contents [] 0]
    simp

/-- C10: a text in which no synthetic value of the inverted mapping occurs
is restored unchanged, with a reported replacement count of zero. -/
theorem restore_identity_when_no_synthetic_present :
    ∀ (reverse_mappings : List (Str × Str)) (content : Str),
      (∀ p ∈ reverse_mappings, containsSub p.1 content = false) →
      Server.restoreFile reverse_mappings content = (content, 0) :=
  fun rm content h => foldl_restoreStep_absent rm content 0 h

/-- Witness for C10 at a concrete mapping and text. -/
theorem restore_identity_when_no_synthetic_present_witness :
    Server.restoreFile [("Jon".toList, "x".toList), ("Jones".toList, "y".toList)]
        "abc def".toList
      = ("abc def".toList, 0) :=
  restore_identity_when_no_synthetic_present _ _ (by decide)

/-- C3 (code bug): the restoration loop does NOT sort the inverted pairs by
descending synthetic length — it processes them in the insertion order of
the vault's mappings.  With originals "A" → "Jon" and "B" → "Jones", the
anonymized text "Jones" (which stands for original "B") is mangled into
"Aes", because the shorter synthetic "Jon" is substituted first inside
"Jones".  The spec-modelled sorted variant restores the exact original
"B". -/
theorem restore_unsorted_mangles_substring_synthetics :
    Server.restoreFile
        (VaultManager.create_reverse_mappings
          [("A".toList, "Jon".toList), ("B".toList, "Jones".toList)])
        "Jones".toList
      = ("Aes".toList, 1) ∧
    SpecModel.restoreFileSorted
        (VaultManager.create_reverse_mappings
          [("A".toList, "Jon".toList), ("B".toList, "Jones".toList)])
        "Jones".toList
      = ("B".toList, 1) := by decide

/-! ## Claim theorems about the anonymization loop -/

/-- C7 (code bug): within a single file, the membership check consults only
`existing_mappings` — never the `new_mappings` recorded earlier in the same
call.  When the same original value "X" is detected under two entity types
(PERSON and LOCATION) in one file, the generator is invoked twice
(`gen_count = 2`), the text receives two different synthetic values "f1"
and "f2" for the same original, and the recorded mapping keeps only the
second one. -/
theorem same_original_two_types_regenerated :
    PIIAnonymizer.anonymize_with_vault
        (fun _ _ k => if k = 0 then "f1".toList else "f2".toList)
        "[REDACTED_PERSON] [REDACTED_LOCATION]".toList
        [("PERSON".toList, ["X".toList]), ("LOCATION".toList, ["X".toList])]
        []
      = { anonymized_text := "f1 f2".toList
          statistics := [("PERSON".toList, 1), ("LOCATION".toList, 1)]
          new_mappings := [("X".toList, "f2".toList)]
          gen_count := 2 } ∧
    "f1".toList ≠ "f2".toList := by decide

/-- C8 (code bug): the replacement loop substitutes each placeholder with
`str.replace(..., 1)` — at most one occurrence per vault entry.  When the
detected value "Alice" occurs twice in the file (two `[REDACTED_PERSON]`
placeholders in the sanitized text, one vault entry), the second
placeholder occurrence survives in the anonymized output. -/
theorem placeholder_survives_duplicate_value :
    (PIIAnonymizer.anonymize_with_vault (fun _ _ _ => "f1".toList)
        "[REDACTED_PERSON] meets [REDACTED_PERSON]".toList
        [("PERSON".toList, ["Alice".toList])] []).anonymized_text
      = "f1 meets [REDACTED_PERSON]".toList ∧
    containsSub (PIIAnonymizer.placeholderFor "PERSON".toList)
        (PIIAnonymizer.anonymize_with_vault (fun _ _ _ => "f1".toList)
          "[REDACTED_PERSON] meets [REDACTED_PERSON]".toList
          [("PERSON".toList, ["Alice".toList])] []).anonymized_text
      = true := by decide

/-- C1 (code bug): round-trip failure.  The file "x y" with PERSON
detections "x" and "y" is anonymized to "Jon Jones" (synthetics "Jon" and
"Jones" share no character with the original text, satisfying the claim's
no-collision hypothesis).  Restoring with the vault produced by that same
anonymization yields "x xes", not "x y": the unsorted restoration loop
substitutes the shorter synthetic "Jon" inside "Jones" first. -/
theorem anonymize_restore_roundtrip_fails :
    (PIIAnonymizer.anonymizeFile
        (fun _ _ k => if k = 0 then "Jon".toList else "Jones".toList)
        [("PERSON".toList, "x".toList), ("PERSON".toList, "y".toList)]
        [] "x y".toList).anonymized_text
      = "Jon Jones".toList ∧
    (Server.restoreFile
        (VaultManager.create_reverse_mappings
          (VaultManager.deserialize_vault
            (some (VaultManager.serialize_vault
              (dictUpdate []
                (PIIAnonymizer.anonymizeFile
                  (fun _ _ k => if k = 0 then "Jon".toList else "Jones".toList)
                  [("PERSON".toList, "x".toList), ("PERSON".toList, "y".toList)]
                  [] "x y".toList).new_mappings)
              0 1 []))).2)
        (PIIAnonymizer.anonymizeFile
          (fun _ _ k => if k = 0 then "Jon".toList else "Jones".toList)
          [("PERSON".toList, "x".toList), ("PERSON".toList, "y".toList)]
          [] "x y".toList).anonymized_text).1
      = "x xes".toList ∧
    "x xes".toList ≠ "x y".toList ∧
    ("x y".toList.all (fun c => !("JonJones".toList.contains c))) = true := by
  decide

/-! ## Helper lemmas about the batch loop -/

theorem processFiles_error (gen : Str → Str → Nat → Str) (msg : Str) :
    ∀ (pre : List Server.BatchFile) (f : Server.BatchFile)
      (post : List Server.BatchFile) (st : Server.BatchState),
      (∀ g ∈ pre, ∀ m, g.read ≠ Server.FileRead.readError m) →
      f.read = Server.FileRead.readError msg →
      Server.processFiles gen (pre ++ f :: post) st = Except.error msg
  | [], f, post, st, _, hf => by
    simp only [List.nil_append, Server.processFiles, hf]
  | g :: pre, f, post, st, hpre, hf => by
    obtain ⟨gname, gread, gdets⟩ := g
    cases gread with
    | noExtractor =>
      simp only [List.cons_append, Server.processFiles]
      exact processFiles_error gen msg pre f post st
        (fun q hq m => hpre q (List.mem_cons_of_mem _ hq) m) hf
    | readError m =>
      exact absurd rfl (hpre _ (List.mem_cons_self ..) m)
    | content text =>
      simp only [List.cons_append, Server.processFiles]
      exact processFiles_error gen msg pre f post _
        (fun q hq m => hpre q (List.mem_cons_of_mem _ hq) m) hf

theorem processFiles_ok (gen : Str → Str → Nat → Str) :
    ∀ (files : List Server.BatchFile) (st : Server.BatchState),
      (∀ g ∈ files, ∀ m, g.read ≠ Server.FileRead.readError m) →
      ∃ st', Server.processFiles gen files st = Except.ok st' ∧
        st'.output_paths = st.output_paths ++ files.filterMap
          (fun g => match g.read with
            | Server.FileRead.content _ => some (Server.output_name g.name)
            | _ => none)
  | [], st, _ => ⟨st, rfl, by simp⟩
  | g :: rest, st, h => by
    obtain ⟨gname, gread, gdets⟩ := g
    cases gread with
    | noExtractor =>
      obtain ⟨st', h1, h2⟩ := processFiles_ok gen rest st
        (fun q hq m => h q (List.mem_cons_of_mem _ hq) m)
      refine ⟨st', ?_, ?_⟩
      · simpa only [Server.processFiles] using h1
      · simpa using h2
    | readError m =>
      exact absurd rfl (h _ (List.mem_cons_self ..) m)
    | content text =>
      obtain ⟨st', h1, h2⟩ := processFiles_ok gen rest
        (let r := PIIAnonymizer.anonymizeFile
            (fun t v k => gen t v (st.gen_base + k)) gdets st.vault_mappings text
         { total_statistics := Server.aggregateStats st.total_statistics r.statistics
           output_paths := st.output_paths ++ [Server.output_name gname]
           vault_mappings := dictUpdate st.vault_mappings r.new_mappings
           gen_base := st.gen_base + r.gen_count })
        (fun q hq m => h q (List.mem_cons_of_mem _ hq) m)
      refine ⟨st', ?_, ?_⟩
      · exact h1
      · simp only [List.filterMap_cons] at h2 ⊢
        rw [h2]
        simp

/-! ## Claim theorems about the batch driver -/

/-- C4 counterexample: in a two-file batch where file "a" is processed
successfully and then file "b" fails, the returned batch result is a
failure with EMPTY output paths — file "a"'s output is discarded from the
result, and the failed file "b" is not named anywhere except inside the
free-text message.  The second conjunct shows the same file "a" alone would
have been reported. -/
theorem batch_failure_discards_previous_outputs :
    Server.anonymize_documents (fun _ _ _ => "f".toList)
        [⟨"a".toList, Server.FileRead.content "x".toList, []⟩,
         ⟨"b".toList, Server.FileRead.readError "boom".toList, []⟩]
      = { success := false, output_paths := [], statistics := [],
          message := "Anonymization failed: boom".toList, vault_path := none } ∧
    (Server.anonymize_documents (fun _ _ _ => "f".toList)
        [⟨"a".toList, Server.FileRead.content "x".toList, []⟩]).output_paths
      = ["a.md".toList] := by decide

/-- C4 amended: the batch loop has no per-file recovery.  A PDF with no
available extractor is skipped silently (not recorded in the result); any
other per-file failure aborts the whole batch — the tool returns a failure
result whose `output_paths` is empty (already-processed files are not
reported) and whose only trace of the failure is the exception text in the
message.  Only when no file fails is every processed file named in the
result. -/
theorem batch_aborts_on_file_failure :
    (∀ (gen : Str → Str → Nat → Str) (pre : List Server.BatchFile)
        (f : Server.BatchFile) (post : List Server.BatchFile) (msg : Str),
      (∀ g ∈ pre, ∀ m, g.read ≠ Server.FileRead.readError m) →
      f.read = Server.FileRead.readError msg →
      Server.anonymize_documents gen (pre ++ f :: post)
        = { success := false, output_paths := [], statistics := [],
            message := "Anonymization failed: ".toList ++ msg }) ∧
    (∀ (gen : Str → Str → Nat → Str) (files : List Server.BatchFile),
      files ≠ [] →
      (∀ g ∈ files, ∀ m, g.read ≠ Server.FileRead.readError m) →
      (Server.anonymize_documents gen files).success = true ∧
      (Server.anonymize_documents gen files).output_paths
        = files.filterMap (fun g => match g.read with
            | Server.FileRead.content _ => some (Server.output_name g.name)
            | _ => none)) := by
  constructor
  · intro gen pre f post msg hpre hf
    have hne : (pre ++ f :: post).isEmpty = false := by
      simp [List.isEmpty_iff]
    simp only [Server.anonymize_documents, hne, Bool.false_eq_true, if_false]
    rw [processFiles_error gen msg pre f post _ hpre hf]
  · intro gen files hne hok
    have hne' : files.isEmpty = false := by
      simp [List.isEmpty_iff, hne]
    obtain ⟨st', h1, h2⟩ := processFiles_ok gen files
      { total_statistics := [], output_paths := [],
        vault_mappings := [], gen_base := 0 } hok
    simp only [Server.anonymize_documents, hne', Bool.false_eq_true, if_false, h1]
    simpa using h2

/-- Witness for C4's amended statement at a concrete batch. -/
theorem batch_aborts_on_file_failure_witness :
    Server.anonymize_documents (fun _ _ _ => "f".toList)
        ([⟨"a".toList, Server.FileRead.content "x".toList, []⟩]
          ++ (⟨"b".toList, Server.FileRead.readError "e".toList, []⟩ : Server.BatchFile) :: [])
      = { success := false, output_paths := [], statistics := [],
          message := "Anonymization failed: ".toList ++ "e".toList } ∧
    (Server.anonymize_documents (fun _ _ _ => "f".toList)
        [⟨"a".toList, Server.FileRead.content "x".toList, []⟩]).success = true :=
  ⟨batch_aborts_on_file_failure.1 _ _ _ _ _
      (by
        intro g hg m
        rw [List.mem_singleton] at hg
        subst hg
        simp)
      rfl,
   (batch_aborts_on_file_failure.2 _ _ (by simp)
      (by
        intro g hg m
        rw [List.mem_singleton] at hg
        subst hg
        simp)).1⟩
